import Mathlib

/-!
Shallow embedding of the pygmc protocol and configuration-codec layer.

The embedding mirrors pygmc.py: the construct-based configuration record
(config_format, decode via parse, encode via build), the serial command
framer (send_command over a byte channel modelled as a response queue),
the configuration patch writer (set_config / write_config_byte), the
date-time commands (parse_datetime, set_datetime, set_date_yy built on
hex_byte), and the character-level behaviour of get_wifi_status.

Bytes are modelled as natural numbers; a byte buffer is a List Nat whose
entries are below 256. Fallible operations return Option or pair the
channel state with an Except value.
-/

set_option maxRecDepth 20000

/-! ## Big-endian integers, as struct.pack / construct IntNub treat them -/

def beUint : List Nat → Nat
  | [] => 0
  | b :: bs => b * 256 ^ bs.length + beUint bs

def beBytes : Nat → Nat → List Nat
  | 0, _ => []
  | w + 1, v => v / 256 ^ w :: beBytes w (v % 256 ^ w)

/-! ## The configuration field table (config_format in pygmc.py) -/

inductive FieldKind : Type
  | uint : Nat → FieldKind
  | text : Nat → FieldKind
  | bytes : Nat → FieldKind
  | padding : Nat → Nat → FieldKind
deriving DecidableEq

def fieldWidth : FieldKind → Nat
  | .uint w => w
  | .text w => w
  | .bytes w => w
  | .padding w _ => w

def Int8ub : FieldKind := .uint 1
def Int16ub : FieldKind := .uint 2
def Int24ub : FieldKind := .uint 3
def Int32ub : FieldKind := .uint 4
def PaddedString (w : Nat) : FieldKind := .text w
def Bytes (w : Nat) : FieldKind := .bytes w
def Padding (w fill : Nat) : FieldKind := .padding w fill

def config_format : List (String × FieldKind) := [
  ("power", Int8ub),
  ("alarm", Int8ub),
  ("speaker", Int8ub),
  ("idle_display_mode", Int8ub),
  ("back_light_timeout_seconds", Int8ub),
  ("idle_title_display_mode", Int8ub),
  ("alarm_CPM_value", Int16ub),
  ("calib_CPM_0", Int16ub),
  ("calib_uSv_0", Int32ub),
  ("calib_CPM_1", Int16ub),
  ("calib_uSv_1", Int32ub),
  ("calib_CPM_2", Int16ub),
  ("calib_uSv_2", Int32ub),
  ("idle_text_state", Int8ub),
  ("alarm_value_uSv", Int32ub),
  ("alarm_type", Int8ub),
  ("save_data_type", Int8ub),
  ("swivel_display", Int8ub),
  ("zoom", Int32ub),
  ("SPI_data_save_address", Int24ub),
  ("SPI_data_read_address", Int24ub),
  ("power_saving_mode", Int8ub),
  ("sensitivity_mode", Int8ub),
  ("counter_delay", Int16ub),
  ("display_contrast", Int8ub),
  ("max_CPM", Int16ub),
  ("unknown1", Int8ub),
  ("large_font_mode", Int8ub),
  ("LCD_back_light_level", Int8ub),
  ("reverse_display_mode", Int8ub),
  ("motion_detect", Int8ub),
  ("battery_type", Int8ub),
  ("baudrate", Int8ub),
  ("CPM_speaker_on_off_calib", Int8ub),
  ("graphic_drawing_mode", Int8ub),
  ("LED_on_off", Int8ub),
  ("unknown2", Int8ub),
  ("save_threshold_value_uSv_m_nCPM", Int16ub),
  ("save_threshold_mode", Int8ub),
  ("save_threshold_value", Int32ub),
  ("SSID", PaddedString 64),
  ("password", PaddedString 64),
  ("website", PaddedString 32),
  ("URL", PaddedString 32),
  ("user_ID", PaddedString 32),
  ("counter_ID", PaddedString 32),
  ("period", Int8ub),
  ("WIFI_on_off", Int8ub),
  ("text_status_mode", Int8ub),
  ("fast_estimate_time", Int8ub),
  ("third_party_output", Int8ub),
  ("high_voltage_level_tube_1", Int8ub),
  ("high_voltage_level_tube_2", Int8ub),
  ("CPM_tube_mode", Int8ub),
  ("CPM_tube_display", Int8ub),
  ("voltage_display", Int8ub),
  ("deadtime_enable", Int8ub),
  ("deadtime_tube_1", Int16ub),
  ("deadtime_tube_2", Int16ub),
  ("medium_threshold", Int16ub),
  ("high_threshold", Int16ub),
  ("speaker_volume", Int8ub),
  ("HV_reading", Int8ub),
  ("target_HV", Int16ub),
  ("HV_calib", Int8ub),
  ("SS1", Bytes 6),
  ("SS2", Bytes 6),
  ("SS3", Bytes 6),
  ("SS4", Bytes 6),
  ("accuracy_display", Int8ub),
  ("dose_alarm_0", Int8ub),
  ("dose_alarm_1", Int8ub),
  ("dose_alarm_2", Int8ub),
  ("dose_alarm_3", Int8ub),
  ("save_date_time", Bytes 6),
  ("unused", Padding 128 255)]

def totalWidth (fs : List (String × FieldKind)) : Nat :=
  (fs.map (fun f => fieldWidth f.2)).sum

/-! ## Field values and the codec (construct parse / build semantics) -/

inductive FieldValue : Type
  | num : Nat → FieldValue
  | str : List Nat → FieldValue
  | raw : List Nat → FieldValue
deriving DecidableEq

/-- construct NullStripped: strip trailing null bytes from the right. -/
def rstripNulls (bs : List Nat) : List Nat :=
  (bs.reverse.dropWhile (· == 0)).reverse

def decodeField : FieldKind → List Nat → Option FieldValue
  | .uint _, bs => if bs.all (· < 256) then some (.num (beUint bs)) else none
  | .text _, bs =>
      let s := rstripNulls bs
      if s.all (· < 128) then some (.str s) else none
  | .bytes _, bs => if bs.all (· < 256) then some (.raw bs) else none
  | .padding _ _, _ => some (.raw [])

def encodeField : FieldKind → FieldValue → Option (List Nat)
  | .uint w, .num v => if v < 256 ^ w then some (beBytes w v) else none
  | .text w, .str s =>
      if s.all (· < 128) ∧ s.length ≤ w then
        some (s ++ List.replicate (w - s.length) 0)
      else none
  | .bytes w, .raw b => if b.length = w ∧ b.all (· < 256) then some b else none
  | .padding w fill, _ => some (List.replicate w fill)
  | _, _ => none

def decodeFields : List (String × FieldKind) → List Nat →
    Option (List FieldValue × List Nat)
  | [], bs => some ([], bs)
  | (_, k) :: fs, bs =>
      if fieldWidth k ≤ bs.length then
        match decodeField k (bs.take (fieldWidth k)) with
        | none => none
        | some v =>
            match decodeFields fs (bs.drop (fieldWidth k)) with
            | none => none
            | some (vs, rest) => some (v :: vs, rest)
      else none

def encodeFields : List (String × FieldKind) → List FieldValue → Option (List Nat)
  | [], [] => some []
  | (_, k) :: fs, v :: vs =>
      match encodeField k v with
      | none => none
      | some chunk =>
          match encodeFields fs vs with
          | none => none
          | some rest => some (chunk ++ rest)
  | _, _ => none

/-- config_format.parse: trailing bytes beyond the table are ignored. -/
def decodeConfig (bs : List Nat) : Option (List FieldValue) :=
  (decodeFields config_format bs).map Prod.fst

/-- config_format.build. -/
def encodeConfig (vs : List FieldValue) : Option (List Nat) :=
  encodeFields config_format vs

/-- A chunk of the buffer that its field decodes and re-encodes byte-exactly:
proper byte values, ASCII text after trailing-null stripping, and the
canonical fill byte throughout a padding region. -/
def wellFormedChunk : FieldKind → List Nat → Bool
  | .uint _, bs => bs.all (· < 256)
  | .text _, bs => (rstripNulls bs).all (· < 128)
  | .bytes _, bs => bs.all (· < 256)
  | .padding w fill, bs => bs == List.replicate w fill

def wellFormedFields : List (String × FieldKind) → List Nat → Bool
  | [], bs => bs == []
  | (_, k) :: fs, bs =>
      decide (fieldWidth k ≤ bs.length) && wellFormedChunk k (bs.take (fieldWidth k)) &&
        wellFormedFields fs (bs.drop (fieldWidth k))

def wellFormedConfig (bs : List Nat) : Bool :=
  wellFormedFields config_format bs

/-- The all-default configuration value: numeric fields 0, empty text,
zero byte arrays, and the padding placeholder. -/
def defaultValue : FieldKind → FieldValue
  | .uint _ => .num 0
  | .text _ => .str []
  | .bytes w => .raw (List.replicate w 0)
  | .padding _ _ => .raw []

def defaultConfig : List FieldValue :=
  config_format.map (fun f => defaultValue f.2)

/-- The encoding of defaultConfig: 384 zero bytes then the 128-byte
0xFF padding region. -/
def sampleBuf : List Nat :=
  List.replicate 384 0 ++ List.replicate 128 255

/-! ## The serial channel and send_command -/

/-- Command framing: ASCII 60 is the opening delimiter, 62 62 the closing one. -/
def frame (command : List Nat) : List Nat :=
  60 :: (command ++ [62, 62])

def strBytes (s : String) : List Nat :=
  s.data.map Char.toNat

/-- The acknowledgement byte b aa. -/
def OK : List Nat := [170]

/-- The channel: the log of frames written so far and the queue of
responses the device will return to successive read_all calls. -/
structure ChanState : Type where
  written : List (List Nat)
  pending : List (List Nat)
deriving DecidableEq

inductive GMCError : Type
  | protocolMismatch : List Nat → List Nat → GMCError
  | structError : GMCError
  | encodeError : GMCError
deriving DecidableEq

inductive Response : Type
  | bytes : List Nat → Response
  | scalar : Nat → Response
  | tuple : List Nat → Response
deriving DecidableEq

/-- struct format codes used by pygmc: B, H, I and the pad byte x. -/
inductive PackCode : Type
  | u8 | u16 | u32 | pad
deriving DecidableEq

def codeSize : PackCode → Nat
  | .u8 => 1
  | .u16 => 2
  | .u32 => 4
  | .pad => 1

/-- struct.unpack: the buffer length must match the format exactly; pad
bytes are consumed but produce no value. -/
def unpackCodes : List PackCode → List Nat → Option (List Nat)
  | [], [] => some []
  | [], _ :: _ => none
  | c :: cs, bs =>
      if codeSize c ≤ bs.length ∧ (bs.take (codeSize c)).all (· < 256) then
        match unpackCodes cs (bs.drop (codeSize c)) with
        | none => none
        | some vs =>
            match c with
            | .pad => some vs
            | _ => some (beUint (bs.take (codeSize c)) :: vs)
      else none

def decodeResponse (response_format : Option (List PackCode)) (response : List Nat)
    (st : ChanState) : ChanState × Except GMCError Response :=
  match response_format with
  | none => (st, .ok (.bytes response))
  | some fmt =>
      match unpackCodes fmt response with
      | none => (st, .error .structError)
      | some [v] => (st, .ok (.scalar v))
      | some vs => (st, .ok (.tuple vs))

/-- GMCConnection.send_command: frame and write the command, read the
response, check it against expected_response if given, then decode it
against response_format if given. -/
def send_command (command : List Nat) (response_format : Option (List PackCode))
    (expected_response : Option (List Nat)) (st : ChanState) :
    ChanState × Except GMCError Response :=
  let response := st.pending.headD []
  let st1 : ChanState := ⟨st.written ++ [frame command], st.pending.tail⟩
  match expected_response with
  | some e =>
      if response = e then decodeResponse response_format response st1
      else (st1, .error (.protocolMismatch e response))
  | none => decodeResponse response_format response st1

/-! ## Device operations used by the claims -/

def alarm_on (st : ChanState) : ChanState × Except GMCError Response :=
  send_command (strBytes "ALARM1") none (some OK) st

/-- WCFG plus struct.pack of the 2-byte big-endian address and the data
byte; callers stay below 65536 and 256 respectively. -/
def write_config_byte (address data_byte : Nat) (st : ChanState) :
    ChanState × Except GMCError Response :=
  send_command
    (strBytes "WCFG" ++ [address / 256 % 256, address % 256] ++ [data_byte % 256])
    none (some OK) st

def writeLoop : List (Nat × Nat) → ChanState → ChanState × Except GMCError Unit
  | [], st => (st, .ok ())
  | (a, b) :: rest, st =>
      match write_config_byte a b st with
      | (st1, .error e) => (st1, .error e)
      | (st1, .ok _) => writeLoop rest st1

/-- set_config: build the record, then one write_config_byte per
(address, byte) pair of the enumerated buffer. -/
def set_config (config : List FieldValue) (st : ChanState) :
    ChanState × Except GMCError Unit :=
  match encodeConfig config with
  | none => (st, .error .encodeError)
  | some to_write => writeLoop to_write.enum st

/-- The frame write_config_byte emits for one address and data byte. -/
def wcfgCommand (address data_byte : Nat) : List Nat :=
  frame (strBytes "WCFG" ++ [address / 256 % 256, address % 256] ++ [data_byte % 256])

/-! ## Date-time commands -/

structure DateTime : Type where
  year : Nat
  month : Nat
  day : Nat
  hour : Nat
  minute : Nat
  second : Nat
deriving DecidableEq

def isLeap (y : Nat) : Bool :=
  (y % 4 == 0 && y % 100 != 0) || y % 400 == 0

def daysInMonth (y m : Nat) : Nat :=
  if m = 2 then (if isLeap y then 29 else 28)
  else if m = 4 ∨ m = 6 ∨ m = 9 ∨ m = 11 then 30
  else 31

/-- The validity checks of the Python datetime constructor. -/
def validDateTime (dt : DateTime) : Bool :=
  decide (1 ≤ dt.year ∧ dt.year ≤ 9999 ∧ 1 ≤ dt.month ∧ dt.month ≤ 12 ∧
    1 ≤ dt.day ∧ dt.day ≤ daysInMonth dt.year dt.month ∧
    dt.hour ≤ 23 ∧ dt.minute ≤ 59 ∧ dt.second ≤ 59)

def mkDatetime (y m d h mi s : Nat) : Option DateTime :=
  if validDateTime ⟨y, m, d, h, mi, s⟩ then some ⟨y, m, d, h, mi, s⟩ else none

/-- parse_datetime: ord(chr(b)) is the identity on byte values; the first
six bytes become datetime(y + 2000, m, d, h, mi, s). -/
def parse_datetime (bs : List Nat) : Option DateTime :=
  match bs with
  | y :: m :: d :: h :: mi :: s :: _ => mkDatetime (y + 2000) m d h mi s
  | _ => none

/-- hex_byte: chr(x).encode of ascii succeeds exactly for 0 <= x < 128
and yields the single byte x; otherwise it raises. -/
def hex_byte (x : Int) : Option (List Nat) :=
  if 0 ≤ x ∧ x < 128 then some [x.toNat] else none

/-- set_datetime: the six components pass through hex_byte in order
(any failure raises before the channel is touched), then one framed
SETDATETIME command is sent and must be acknowledged. -/
def set_datetime (dt : DateTime) (st : ChanState) :
    ChanState × Except GMCError Response :=
  match hex_byte ((dt.year : Int) - 2000) with
  | none => (st, .error .encodeError)
  | some b1 =>
    match hex_byte (dt.month : Int) with
    | none => (st, .error .encodeError)
    | some b2 =>
      match hex_byte (dt.day : Int) with
      | none => (st, .error .encodeError)
      | some b3 =>
        match hex_byte (dt.hour : Int) with
        | none => (st, .error .encodeError)
        | some b4 =>
          match hex_byte (dt.minute : Int) with
          | none => (st, .error .encodeError)
          | some b5 =>
            match hex_byte (dt.second : Int) with
            | none => (st, .error .encodeError)
            | some b6 =>
                send_command
                  (strBytes "SETDATETIME" ++ b1 ++ b2 ++ b3 ++ b4 ++ b5 ++ b6)
                  none (some OK) st

def set_date_yy (year : Int) (st : ChanState) :
    ChanState × Except GMCError Response :=
  match hex_byte year with
  | none => (st, .error .encodeError)
  | some b => send_command (strBytes "SETDATEYY" ++ b) (some [PackCode.u8]) (some OK) st

/-! ## The AT sub-protocol: csv parsing and get_wifi_status -/

def AP_STATUS_FIELDS : List String :=
  ["ssid", "bssid", "channel", "rssi", "pci_en", "reconn_interval",
   "listen_interval", "scan_mode", "pmf"]

def quoteChar : Char := Char.ofNat 34

/-- Parser states of the Python csv reader. -/
inductive CsvState : Type
  | startRecord | startField | inField | inQuoted | quoteInQuoted
deriving DecidableEq

/-- One character of one line, Python csv default dialect: comma
delimiter, double-quote quoting, a doubled quote inside a quoted field
is a literal quote, and a stray character after a closing quote is
appended in non-strict mode. The parser value is the state, the current
field (reversed) and the fields of the current record (reversed). The
lines handled here contain no CR or LF: the AT adapter splits the
response on CRLF, and one-character lines from string iteration carry
none either. -/
def csvStep : CsvState × List Char × List String → Char →
    CsvState × List Char × List String
  | (.startRecord, field, rec), c =>
      if c = quoteChar then (.inQuoted, field, rec)
      else if c = ',' then (.startField, [], String.mk field.reverse :: rec)
      else (.inField, c :: field, rec)
  | (.startField, field, rec), c =>
      if c = quoteChar then (.inQuoted, field, rec)
      else if c = ',' then (.startField, [], String.mk field.reverse :: rec)
      else (.inField, c :: field, rec)
  | (.inField, field, rec), c =>
      if c = ',' then (.startField, [], String.mk field.reverse :: rec)
      else (.inField, c :: field, rec)
  | (.inQuoted, field, rec), c =>
      if c = quoteChar then (.quoteInQuoted, field, rec)
      else (.inQuoted, c :: field, rec)
  | (.quoteInQuoted, field, rec), c =>
      if c = quoteChar then (.inQuoted, c :: field, rec)
      else if c = ',' then (.startField, [], String.mk field.reverse :: rec)
      else (.inField, c :: field, rec)

/-- End of one line of the iterable: an empty line yields the empty row,
end of line inside a quoted field is ignored so the quoted field
continues into the next line, and any other state saves the current
field and completes the record. -/
def csvEndOfLine : CsvState × List Char × List String →
    Option (List String) × (CsvState × List Char × List String)
  | (.startRecord, _, _) => (some [], (.startRecord, [], []))
  | (.inQuoted, field, rec) => (none, (.inQuoted, field, rec))
  | (_, field, rec) =>
      (some (String.mk field.reverse :: rec).reverse, (.startRecord, [], []))

/-- The csv reader run to exhaustion over an iterable of lines: the
parser state carries across lines, and when the input ends inside a
quoted field or with a partial field the last record is still emitted. -/
def csvRecords : List String → CsvState × List Char × List String → List (List String)
  | [], (st, field, rec) =>
      if st = CsvState.inQuoted ∨ field ≠ [] then
        [(String.mk field.reverse :: rec).reverse]
      else []
  | line :: rest, acc =>
      match csvEndOfLine (line.data.foldl csvStep acc) with
      | (some row, acc2) => row :: csvRecords rest acc2
      | (none, acc2) => csvRecords rest acc2

/-- Parsing one complete line of csv text. -/
def csvParseLine (s : String) : List String :=
  (csvRecords [s] (CsvState.startRecord, [], [])).headD []

/-- next on a csv.DictReader over an iterable of lines: skip empty rows,
then zip the first remaining row positionally with the field names,
filling missing trailing fields with the restval None. -/
def dictReaderNext (lines : List String) (fieldnames : List String) :
    Option (List (String × Option String)) :=
  match (csvRecords lines (CsvState.startRecord, [], [])).filter (fun r => r ≠ []) with
  | [] => none
  | row :: _ => some (fieldnames.enum.map (fun p => (p.2, row.get? p.1)))

/-- get_wifi_status: take response line 1, drop the 7-character prefix,
and hand the resulting STRING to DictReader, which therefore iterates
it character by character; return the first record. -/
def get_wifi_status (lines : List String) : Option (List (String × Option String)) :=
  match lines.get? 1 with
  | none => none
  | some line1 =>
      let charLines := (line1.drop 7).data.map (fun c => String.mk [c])
      dictReaderNext charLines AP_STATUS_FIELDS

/-- A concrete CWJAP? exchange: echo line, then the association line. -/
def wifiStatusLines : List String :=
  ["AT+CWJAP?",
   "+CWJAP:\x22MyNet\x22,\x22aa:bb:cc:dd:ee:ff\x22,6,-50,1,0,3,0,0",
   "",
   "OK"]

def dt2200 : DateTime := ⟨2200, 1, 1, 0, 0, 0⟩

deriving instance DecidableEq for Except

/-! ## Lemmas: big-endian round trip -/

theorem beBytes_length (w v : Nat) : (beBytes w v).length = w := by
  induction w generalizing v with
  | zero => rfl
  | succ n ih => simp [beBytes, ih]

theorem beUint_lt (bs : List Nat) (h : ∀ b ∈ bs, b < 256) :
    beUint bs < 256 ^ bs.length := by
  induction bs with
  | nil => simp [beUint]
  | cons b bs ih =>
      have hb : b < 256 := h b (by simp)
      have hr : beUint bs < 256 ^ bs.length := ih (fun x hx => h x (by simp [hx]))
      have hstep : (b + 1) * 256 ^ bs.length ≤ 256 * 256 ^ bs.length :=
        Nat.mul_le_mul_right _ hb
      calc beUint (b :: bs) = b * 256 ^ bs.length + beUint bs := rfl
        _ < (b + 1) * 256 ^ bs.length := by
            have := hr
            nlinarith
        _ ≤ 256 * 256 ^ bs.length := hstep
        _ = 256 ^ (b :: bs).length := by
            simp [List.length_cons, pow_succ]
            ring

theorem beBytes_beUint (bs : List Nat) (h : ∀ b ∈ bs, b < 256) :
    beBytes bs.length (beUint bs) = bs := by
  induction bs with
  | nil => rfl
  | cons b bs ih =>
      have hr : beUint bs < 256 ^ bs.length :=
        beUint_lt bs (fun x hx => h x (by simp [hx]))
      have hpos : 0 < 256 ^ bs.length := Nat.pos_pow_of_pos _ (by norm_num)
      have hdiv : (b * 256 ^ bs.length + beUint bs) / 256 ^ bs.length = b := by
        rw [Nat.mul_comm b, Nat.mul_add_div hpos, Nat.div_eq_of_lt hr]
        omega
      have hmod : (b * 256 ^ bs.length + beUint bs) % 256 ^ bs.length = beUint bs := by
        rw [Nat.mul_comm b, Nat.mul_add_mod, Nat.mod_eq_of_lt hr]
      have ihs := ih (fun x hx => h x (by simp [hx]))
      simp [beUint, beBytes, hdiv, hmod, ihs]

/-! ## Lemmas: trailing-null stripping -/

theorem takeWhile_zero_replicate (l : List Nat) :
    l.takeWhile (· == 0) = List.replicate (l.takeWhile (· == 0)).length 0 := by
  induction l with
  | nil => rfl
  | cons b bs ih =>
      by_cases hb : b = 0
      · subst hb
        simp [List.takeWhile_cons, List.replicate_succ] at *
        exact ih
      · simp [List.takeWhile_cons, hb]

theorem rstrip_spec (bs : List Nat) :
    bs = rstripNulls bs ++ List.replicate (bs.length - (rstripNulls bs).length) 0 := by
  have h1 : List.takeWhile (· == 0) bs.reverse ++ List.dropWhile (· == 0) bs.reverse
      = bs.reverse := List.takeWhile_append_dropWhile _ _
  have hl1 : (List.takeWhile (· == 0) bs.reverse).length +
      (List.dropWhile (· == 0) bs.reverse).length = bs.length := by
    rw [← List.length_append, h1, List.length_reverse]
  have hl2 : (rstripNulls bs).length = (List.dropWhile (· == 0) bs.reverse).length := by
    simp [rstripNulls]
  have hcount : (List.takeWhile (· == 0) bs.reverse).length =
      bs.length - (rstripNulls bs).length := by omega
  have h3 : (List.takeWhile (· == 0) bs.reverse).reverse =
      List.replicate (bs.length - (rstripNulls bs).length) 0 := by
    conv_lhs => rw [takeWhile_zero_replicate]
    rw [List.reverse_replicate, hcount]
  calc bs = bs.reverse.reverse := by rw [List.reverse_reverse]
    _ = (List.takeWhile (· == 0) bs.reverse ++ List.dropWhile (· == 0) bs.reverse).reverse := by
        rw [h1]
    _ = (List.dropWhile (· == 0) bs.reverse).reverse ++
        (List.takeWhile (· == 0) bs.reverse).reverse := by rw [List.reverse_append]
    _ = rstripNulls bs ++ List.replicate (bs.length - (rstripNulls bs).length) 0 := by
        rw [h3]
        rfl

theorem rstrip_length_le (bs : List Nat) : (rstripNulls bs).length ≤ bs.length := by
  have := congrArg List.length (rstrip_spec bs)
  simp at this
  omega

/-! ## Lemmas: per-chunk and whole-record round trip -/

theorem chunk_roundtrip (k : FieldKind) (bs : List Nat)
    (hw : wellFormedChunk k bs = true) (hl : bs.length = fieldWidth k) :
    ∃ v, decodeField k bs = some v ∧ encodeField k v = some bs := by
  cases k with
  | uint w =>
      simp only [fieldWidth] at hl
      have hb : bs.all (· < 256) = true := hw
      have hall : ∀ b ∈ bs, b < 256 := by
        intro b hmem
        have := (List.all_eq_true.mp hb) b hmem
        simpa using this
      refine ⟨.num (beUint bs), ?_, ?_⟩
      · simp [decodeField, hb]
      · have hlt : beUint bs < 256 ^ w := by
          have := beUint_lt bs hall
          rwa [hl] at this
        have henc : beBytes w (beUint bs) = bs := by
          have := beBytes_beUint bs hall
          rwa [hl] at this
        simp [encodeField, hlt, henc]
  | text w =>
      simp only [fieldWidth] at hl
      have hb : (rstripNulls bs).all (· < 128) = true := hw
      have hle : (rstripNulls bs).length ≤ w := by
        have := rstrip_length_le bs
        omega
      refine ⟨.str (rstripNulls bs), ?_, ?_⟩
      · simp only [decodeField]
        rw [if_pos hb]
      · have hpad : rstripNulls bs ++ List.replicate (w - (rstripNulls bs).length) 0 = bs := by
          conv_rhs => rw [rstrip_spec bs]
          rw [hl]
        simp only [encodeField]
        rw [if_pos ⟨hb, hle⟩, hpad]
  | bytes w =>
      simp only [fieldWidth] at hl
      have hb : bs.all (· < 256) = true := hw
      refine ⟨.raw bs, ?_, ?_⟩
      · simp [decodeField, hb]
      · simp only [encodeField]
        rw [if_pos ⟨hl, hb⟩]
  | padding w fill =>
      have hbs : bs = List.replicate w fill := by simpa [wellFormedChunk] using hw
      exact ⟨.raw [], by simp [decodeField], by simp [encodeField, hbs]⟩

theorem fields_roundtrip (fs : List (String × FieldKind)) (bs : List Nat)
    (h : wellFormedFields fs bs = true) :
    ∃ vs, decodeFields fs bs = some (vs, []) ∧ encodeFields fs vs = some bs := by
  induction fs generalizing bs with
  | nil =>
      have hb : bs = [] := by simpa [wellFormedFields] using h
      subst hb
      exact ⟨[], rfl, rfl⟩
  | cons f fs ih =>
      obtain ⟨name, k⟩ := f
      simp only [wellFormedFields, Bool.and_eq_true, decide_eq_true_eq] at h
      obtain ⟨⟨hle, hchunk⟩, hrest⟩ := h
      have hlen : (bs.take (fieldWidth k)).length = fieldWidth k := by
        simp [List.length_take]
        omega
      obtain ⟨v, hdec, henc⟩ := chunk_roundtrip k (bs.take (fieldWidth k)) hchunk hlen
      obtain ⟨vs, hdecs, hencs⟩ := ih (bs.drop (fieldWidth k)) hrest
      refine ⟨v :: vs, ?_, ?_⟩
      · simp [decodeFields, hle, hdec, hdecs]
      · simp [encodeFields, henc, hencs, List.take_append_drop]

/-! ## Lemmas: widths and buffer lengths -/

theorem encodeField_length (k : FieldKind) (v : FieldValue) (bs : List Nat)
    (h : encodeField k v = some bs) : bs.length = fieldWidth k := by
  cases k with
  | uint w =>
      cases v <;> simp [encodeField] at h
      obtain ⟨-, hb⟩ := h
      rw [← hb, beBytes_length]
      rfl
  | text w =>
      cases v <;> simp [encodeField] at h
      obtain ⟨⟨-, hle⟩, hb⟩ := h
      rw [← hb]
      simp [fieldWidth]
      omega
  | bytes w =>
      cases v <;> simp [encodeField] at h
      obtain ⟨⟨hlen, -⟩, hb⟩ := h
      rw [← hb]
      exact hlen
  | padding w fill =>
      simp [encodeField] at h
      rw [← h]
      simp [fieldWidth]

theorem encodeFields_length (fs : List (String × FieldKind)) (vs : List FieldValue)
    (bs : List Nat) (h : encodeFields fs vs = some bs) : bs.length = totalWidth fs := by
  induction fs generalizing vs bs with
  | nil =>
      cases vs with
      | nil =>
          have hb : ([] : List Nat) = bs := Option.some_inj.mp h
          rw [← hb]
          rfl
      | cons v vs => simp [encodeFields] at h
  | cons f fs ih =>
      obtain ⟨name, k⟩ := f
      cases vs with
      | nil => simp [encodeFields] at h
      | cons v vs =>
          simp only [encodeFields] at h
          cases hc : encodeField k v with
          | none => rw [hc] at h; simp at h
          | some chunk =>
              rw [hc] at h
              cases hr : encodeFields fs vs with
              | none => rw [hr] at h; simp at h
              | some rest =>
                  rw [hr] at h
                  simp at h
                  rw [← h]
                  simp [totalWidth, encodeField_length k v chunk hc]
                  have := ih vs rest hr
                  simp [totalWidth] at this
                  omega

theorem decodeFields_length (fs : List (String × FieldKind)) (bs : List Nat)
    (vs : List FieldValue) (rest : List Nat)
    (h : decodeFields fs bs = some (vs, rest)) :
    bs.length = totalWidth fs + rest.length := by
  induction fs generalizing bs vs rest with
  | nil =>
      simp [decodeFields] at h
      simp [totalWidth, h.2]
  | cons f fs ih =>
      obtain ⟨name, k⟩ := f
      simp only [decodeFields] at h
      by_cases hle : fieldWidth k ≤ bs.length
      · rw [if_pos hle] at h
        cases hd : decodeField k (bs.take (fieldWidth k)) with
        | none => rw [hd] at h; simp at h
        | some v =>
            rw [hd] at h
            cases hds : decodeFields fs (bs.drop (fieldWidth k)) with
            | none => rw [hds] at h; simp at h
            | some p =>
                obtain ⟨vs2, rest2⟩ := p
                rw [hds] at h
                simp only [Option.some.injEq, Prod.mk.injEq] at h
                obtain ⟨hv, hr⟩ := h
                subst hr
                have hrec := ih (bs.drop (fieldWidth k)) vs2 rest2 hds
                rw [List.length_drop] at hrec
                simp only [totalWidth, List.map_cons, List.sum_cons]
                simp only [totalWidth] at hrec
                omega
      · rw [if_neg hle] at h
        simp at h

theorem config_totalWidth : totalWidth config_format = 512 := by decide

theorem encodeConfig_length (vs : List FieldValue) (bs : List Nat)
    (h : encodeConfig vs = some bs) : bs.length = 512 := by
  have := encodeFields_length config_format vs bs h
  rwa [config_totalWidth] at this

/-! ## Lemmas: text-field overflow propagates to a failed build -/

theorem encodeFields_text_overflow (pre post : List (String × FieldKind))
    (n : String) (w : Nat) (vpre vpost : List FieldValue) (s : List Nat)
    (hl : vpre.length = pre.length) (hw : w < s.length) :
    encodeFields (pre ++ (n, FieldKind.text w) :: post)
      (vpre ++ FieldValue.str s :: vpost) = none := by
  induction pre generalizing vpre with
  | nil =>
      have hv : vpre = [] := List.length_eq_zero.mp (by simpa using hl)
      subst hv
      simp only [List.nil_append, encodeFields]
      have : encodeField (FieldKind.text w) (FieldValue.str s) = none := by
        simp [encodeField]
        intro h
        omega
      rw [this]
  | cons f pre ih =>
      obtain ⟨fn, fk⟩ := f
      cases vpre with
      | nil => simp at hl
      | cons v vpre =>
          have hl2 : vpre.length = pre.length := by simpa using hl
          simp only [List.cons_append, encodeFields, List.append_eq, ih vpre hl2]
          cases encodeField fk v <;> rfl

/-! ## Lemmas: the command framer and the patch-write loop -/

theorem decodeResponse_fst (fmt : Option (List PackCode)) (resp : List Nat)
    (st : ChanState) : (decodeResponse fmt resp st).1 = st := by
  cases fmt with
  | none => rfl
  | some f =>
      simp only [decodeResponse]
      cases unpackCodes f resp with
      | none => rfl
      | some vs =>
          cases vs with
          | nil => rfl
          | cons v t => cases t <;> rfl

theorem send_command_fst (c : List Nat) (fmt : Option (List PackCode))
    (e : Option (List Nat)) (st : ChanState) :
    (send_command c fmt e st).1 = ⟨st.written ++ [frame c], st.pending.tail⟩ := by
  cases e with
  | none => simp only [send_command]; rw [decodeResponse_fst]
  | some ex =>
      simp only [send_command]
      by_cases hr : st.pending.headD [] = ex
      · rw [if_pos hr, decodeResponse_fst]
      · rw [if_neg hr]

theorem decodeResponse_snd_ok (resp : List Nat) (st : ChanState) :
    (decodeResponse none resp st).2 = .ok (.bytes resp) := rfl

theorem send_command_no_encodeError (c : List Nat) (e : Option (List Nat))
    (st : ChanState) :
    (send_command c none e st).2 ≠ Except.error GMCError.encodeError := by
  cases e with
  | none => simp [send_command, decodeResponse]
  | some ex =>
      simp only [send_command]
      by_cases hr : st.pending.headD [] = ex
      · rw [if_pos hr]
        simp [decodeResponse]
      · rw [if_neg hr]
        simp

theorem writeLoop_all_ok (pairs : List (Nat × Nat)) (w rest : List (List Nat)) :
    writeLoop pairs ⟨w, List.replicate pairs.length OK ++ rest⟩ =
      (⟨w ++ pairs.map (fun p => wcfgCommand p.1 p.2), rest⟩, .ok ()) := by
  induction pairs generalizing w with
  | nil => simp [writeLoop]
  | cons p ps ih =>
      obtain ⟨a, b⟩ := p
      have hq : List.replicate ((a, b) :: ps).length OK ++ rest
          = OK :: (List.replicate ps.length OK ++ rest) := by
        simp [List.replicate_succ]
      rw [hq]
      have hw : write_config_byte a b ⟨w, OK :: (List.replicate ps.length OK ++ rest)⟩
          = (⟨w ++ [wcfgCommand a b], List.replicate ps.length OK ++ rest⟩,
             .ok (.bytes OK)) := rfl
      simp only [writeLoop, hw]
      rw [ih (w ++ [wcfgCommand a b])]
      simp

theorem writeLoop_fails (pairs : List (Nat × Nat)) (k : Nat) (hk : k < pairs.length)
    (resp : List Nat) (hr : resp ≠ OK) (w rest : List (List Nat)) :
    writeLoop pairs ⟨w, List.replicate k OK ++ resp :: rest⟩ =
      (⟨w ++ (pairs.take (k + 1)).map (fun p => wcfgCommand p.1 p.2), rest⟩,
       Except.error (.protocolMismatch OK resp)) := by
  induction pairs generalizing k w with
  | nil => simp at hk
  | cons p ps ih =>
      obtain ⟨a, b⟩ := p
      cases k with
      | zero =>
          have hw : write_config_byte a b ⟨w, resp :: rest⟩
              = (⟨w ++ [wcfgCommand a b], rest⟩,
                 Except.error (.protocolMismatch OK resp)) := by
            simp only [write_config_byte, send_command, wcfgCommand, frame,
              List.headD_cons, List.tail_cons]
            rw [if_neg hr]
          simp only [List.replicate, List.nil_append, writeLoop, hw, List.take, List.map]
      | succ k2 =>
          have hq : List.replicate (k2 + 1) OK ++ resp :: rest
              = OK :: (List.replicate k2 OK ++ resp :: rest) := by
            simp [List.replicate_succ]
          rw [hq]
          have hw : write_config_byte a b ⟨w, OK :: (List.replicate k2 OK ++ resp :: rest)⟩
              = (⟨w ++ [wcfgCommand a b], List.replicate k2 OK ++ resp :: rest⟩,
                 .ok (.bytes OK)) := rfl
          simp only [writeLoop, hw]
          have hk2 : k2 < ps.length := by simpa using hk
          rw [ih k2 hk2 (w ++ [wcfgCommand a b])]
          simp

/-! ## Claims about the configuration codec -/

/-- C1 (counterexample). The claim quantifies over well-formed 256-byte
buffers, but the field table consumes 512 bytes, so no 256-byte buffer
decodes at all: on the syntactically valid all-zero 256-byte buffer the
round trip encodeConfig after decodeConfig does not return the buffer. -/
theorem roundtrip_256_counterexample :
    (List.replicate 256 0).length = 256 ∧
    (List.replicate 256 0).all (· < 256) = true ∧
    (decodeConfig (List.replicate 256 0)).bind encodeConfig ≠
      some (List.replicate 256 0) := by
  refine ⟨by decide, by decide, by decide⟩

/-- C1 (amended). The configuration record is 512 bytes: for every
well-formed 512-byte buffer (in-range bytes, ASCII text fields after
trailing-null stripping, padding region equal to the 0xFF fill),
encoding the result of decoding reproduces the buffer byte-for-byte,
including the reserved padding region and null-padded text fields. -/
theorem decode_encode_roundtrip (bs : List Nat) (h : wellFormedConfig bs = true) :
    (decodeConfig bs).bind encodeConfig = some bs := by
  obtain ⟨vs, hd, he⟩ := fields_roundtrip config_format bs h
  simp [decodeConfig, encodeConfig, hd, he]

/-- C1 witness: a concrete well-formed 512-byte buffer round trips. -/
theorem decode_encode_roundtrip_witness :
    wellFormedConfig sampleBuf = true ∧
    (decodeConfig sampleBuf).bind encodeConfig = some sampleBuf :=
  ⟨by decide, decode_encode_roundtrip sampleBuf (by decide)⟩

/-- C2 (counterexample). The declared widths of config_format do not sum
to 256. -/
theorem config_width_not_256 : totalWidth config_format ≠ 256 := by decide

/-- C2 (amended). The declared widths sum to exactly 512: decodeConfig
consumes exactly 512 bytes (whatever trails the record is returned as
rest) and a successful encodeConfig produces exactly a 512-byte buffer. -/
theorem config_width_512 :
    totalWidth config_format = 512 ∧
    (∀ vs bs, encodeConfig vs = some bs → bs.length = 512) ∧
    (∀ bs vs rest, decodeFields config_format bs = some (vs, rest) →
      bs.length = 512 + rest.length) := by
  refine ⟨config_totalWidth, encodeConfig_length, ?_⟩
  intro bs vs rest h
  have := decodeFields_length config_format bs vs rest h
  rwa [config_totalWidth] at this

/-- C2 witness: the default configuration encodes to a 512-byte buffer
which decodes back consuming all 512 bytes. -/
theorem config_width_512_witness :
    encodeConfig defaultConfig = some sampleBuf ∧ sampleBuf.length = 512 ∧
    decodeFields config_format sampleBuf = some (defaultConfig, []) ∧
    sampleBuf.length = 512 + ([] : List Nat).length :=
  ⟨by decide, config_width_512.2.1 defaultConfig sampleBuf (by decide),
   by decide, config_width_512.2.2 sampleBuf defaultConfig [] (by decide)⟩

/-- C6. Encoding a configuration whose SSID text field holds 65 bytes,
one more than the declared width 64, fails and returns no buffer at all,
whatever the other field values are. -/
theorem encode_text_overflow (vpre vpost : List FieldValue) (s : List Nat)
    (hpre : vpre.length = 40) (hs : s.length = 65) :
    encodeConfig (vpre ++ FieldValue.str s :: vpost) = none := by
  have hsplit : config_format =
      config_format.take 40 ++ ("SSID", FieldKind.text 64) :: config_format.drop 41 := by
    decide
  have hlen : vpre.length = (config_format.take 40).length := by
    rw [hpre]
    decide
  have hw : 64 < s.length := by omega
  calc encodeConfig (vpre ++ FieldValue.str s :: vpost)
      = encodeFields config_format (vpre ++ FieldValue.str s :: vpost) := rfl
    _ = none := by
        rw [hsplit]
        exact encodeFields_text_overflow _ _ _ _ _ _ _ hlen hw

/-- C6 witness: a concrete 65-byte SSID value makes the build fail. -/
theorem encode_text_overflow_witness :
    (defaultConfig.take 40).length = 40 ∧ (List.replicate 65 97).length = 65 ∧
    encodeConfig (defaultConfig.take 40 ++
      FieldValue.str (List.replicate 65 97) :: defaultConfig.drop 41) = none :=
  ⟨by decide, by decide,
   encode_text_overflow (defaultConfig.take 40) (defaultConfig.drop 41)
     (List.replicate 65 97) (by decide) (by decide)⟩

/-! ## Claims about the patch writer and the framer -/

/-- C3 (counterexample). With a fully acknowledging device, set_config on
the default configuration issues 512 write commands, not 256. -/
theorem set_config_not_256 :
    (set_config defaultConfig ⟨[], List.replicate 512 OK⟩).1.written.length = 512 ∧
    (512 : Nat) ≠ 256 := by
  constructor
  · have henc : encodeConfig defaultConfig = some sampleBuf := by decide
    have hlen : sampleBuf.enum.length = 512 := by
      rw [List.enum_length]
      decide
    have hrep : (List.replicate 512 OK : List (List Nat))
        = List.replicate sampleBuf.enum.length OK ++ [] := by
      rw [hlen, List.append_nil]
    simp only [set_config, henc]
    rw [hrep, writeLoop_all_ok]
    simp [hlen]
  · decide

/-- C3 (amended). The encoded buffer is 512 bytes: with an acknowledging
device, set_config issues exactly 512 single-byte write commands, one per
address 0, 1, ..., 511 in ascending order (the enumeration of the encoded
buffer), each command carrying the 2-byte big-endian address followed by
the byte of the buffer at that address, each acknowledged before the
next (the failure case is the C4 theorem). -/
theorem set_config_commands (config : List FieldValue) (buf : List Nat)
    (h : encodeConfig config = some buf) (w rest : List (List Nat)) :
    set_config config ⟨w, List.replicate 512 OK ++ rest⟩ =
      (⟨w ++ buf.enum.map (fun p => wcfgCommand p.1 p.2), rest⟩, .ok ()) ∧
    buf.length = 512 ∧
    buf.enum.map Prod.fst = List.range 512 := by
  have hlen : buf.length = 512 := encodeConfig_length config buf h
  have henum : buf.enum.length = 512 := by rw [List.enum_length, hlen]
  refine ⟨?_, hlen, ?_⟩
  · simp only [set_config, h]
    have hrep : (List.replicate 512 OK : List (List Nat)) ++ rest
        = List.replicate buf.enum.length OK ++ rest := by rw [henum]
    rw [hrep, writeLoop_all_ok]
  · rw [List.enum_map_fst, hlen]

/-- C3 witness: the default configuration write trace. -/
theorem set_config_commands_witness :
    encodeConfig defaultConfig = some sampleBuf ∧
    (set_config defaultConfig ⟨[], List.replicate 512 OK ++ []⟩ =
      (⟨[] ++ sampleBuf.enum.map (fun p => wcfgCommand p.1 p.2), []⟩, .ok ()) ∧
     sampleBuf.length = 512 ∧ sampleBuf.enum.map Prod.fst = List.range 512) :=
  ⟨by decide, set_config_commands defaultConfig sampleBuf (by decide) [] []⟩

/-- C4 (counterexample). The propagated error does not report how many
bytes were written: a failure after 0 acknowledged writes and a failure
after 2 acknowledged writes produce the same error value, even though
the two runs wrote 1 and 3 commands respectively. -/
theorem set_config_error_no_count :
    (set_config defaultConfig ⟨[], [[85]]⟩).2 =
      (set_config defaultConfig ⟨[], [OK, OK, [85]]⟩).2 ∧
    (set_config defaultConfig ⟨[], [[85]]⟩).2 =
      Except.error (.protocolMismatch OK [85]) ∧
    (set_config defaultConfig ⟨[], [[85]]⟩).1.written.length = 1 ∧
    (set_config defaultConfig ⟨[], [OK, OK, [85]]⟩).1.written.length = 3 := by
  refine ⟨by decide, by decide, by decide, by decide⟩

/-- C4 (amended). When the k-th acknowledgement fails, set_config stops
at the first failure: exactly the first k + 1 commands have been written
(the k acknowledged ones plus the rejected one), nothing further is
attempted and no rollback is issued, and the propagated error carries
the expected and the actual response bytes (not a count). -/
theorem set_config_failure (config : List FieldValue) (buf : List Nat)
    (h : encodeConfig config = some buf) (k : Nat) (hk : k < 512)
    (resp : List Nat) (hr : resp ≠ OK) (w rest : List (List Nat)) :
    set_config config ⟨w, List.replicate k OK ++ resp :: rest⟩ =
      (⟨w ++ (buf.enum.take (k + 1)).map (fun p => wcfgCommand p.1 p.2), rest⟩,
       Except.error (.protocolMismatch OK resp)) := by
  have hlen : buf.length = 512 := encodeConfig_length config buf h
  have hk2 : k < buf.enum.length := by
    rw [List.enum_length, hlen]
    exact hk
  simp only [set_config, h]
  exact writeLoop_fails buf.enum k hk2 resp hr w rest

/-- C4 witness: failure at the third write of the default configuration. -/
theorem set_config_failure_witness :
    encodeConfig defaultConfig = some sampleBuf ∧ (2 : Nat) < 512 ∧
    ([85] : List Nat) ≠ OK ∧
    set_config defaultConfig ⟨[], List.replicate 2 OK ++ [85] :: []⟩ =
      (⟨[] ++ (sampleBuf.enum.take 3).map (fun p => wcfgCommand p.1 p.2), []⟩,
       Except.error (.protocolMismatch OK [85])) :=
  ⟨by decide, by decide, by decide,
   set_config_failure defaultConfig sampleBuf (by decide) 2 (by decide) [85]
     (by decide) [] []⟩

/-- C5. An alarm-on command answered by anything other than the single
acknowledgement byte 0xAA fails with an error carrying both the expected
and the actual bytes, and the only frame ever written to the channel by
the operation is the one ALARM1 command: nothing further is sent after
the failure. -/
theorem alarm_on_mismatch (w : List (List Nat)) (resp : List Nat)
    (rest : List (List Nat)) (hr : resp ≠ OK) :
    alarm_on ⟨w, resp :: rest⟩ =
      (⟨w ++ [frame (strBytes "ALARM1")], rest⟩,
       Except.error (.protocolMismatch OK resp)) := by
  simp only [alarm_on, send_command, List.headD_cons, List.tail_cons]
  rw [if_neg hr]

/-- C5 witness: a device answering 0x55 makes alarm_on fail. -/
theorem alarm_on_mismatch_witness :
    ([85] : List Nat) ≠ OK ∧
    alarm_on ⟨[], [[85]]⟩ =
      (⟨[frame (strBytes "ALARM1")], []⟩,
       Except.error (.protocolMismatch OK [85])) :=
  ⟨by decide, alarm_on_mismatch [] [85] [] (by decide)⟩

/-! ## Claims about the date-time commands, response decoding and wifi status -/

/-- C7 (counterexample). Byte value 200 decodes to year 2200, but
set_datetime on that datetime cannot encode the component as a raw byte:
it fails with an encoding error and writes nothing to the channel. -/
theorem set_datetime_2200_fails :
    parse_datetime [200, 1, 1, 0, 0, 0] = some dt2200 ∧
    set_datetime dt2200 ⟨[], [OK]⟩ = (⟨[], [OK]⟩, Except.error .encodeError) :=
  ⟨by decide, by decide⟩

/-- C7 (amended). Date-time values are six raw bytes, byte value v
standing for the number v directly and the year byte for 2000 + y:
decoding maps bytes (y, m, d, h, mi, s) to the datetime
(2000 + y, m, d, h, mi, s); and whenever every component value is below
128 the set command sends one frame whose payload carries each component
as a single raw byte equal to its numeric value (components of 128 or
more cannot pass the ASCII encoding helper and make the command fail). -/
theorem datetime_raw_bytes :
    (∀ y m d h mi s rest2, validDateTime ⟨y + 2000, m, d, h, mi, s⟩ = true →
      parse_datetime (y :: m :: d :: h :: mi :: s :: rest2) =
        some ⟨y + 2000, m, d, h, mi, s⟩) ∧
    (∀ (dt : DateTime) (st : ChanState), 2000 ≤ dt.year → dt.year < 2128 →
      dt.month < 128 → dt.day < 128 → dt.hour < 128 → dt.minute < 128 →
      dt.second < 128 →
      (set_datetime dt st).1.written = st.written ++
        [frame (strBytes "SETDATETIME" ++
          [dt.year - 2000, dt.month, dt.day, dt.hour, dt.minute, dt.second])]) := by
  constructor
  · intro y m d h mi s rest2 hv
    simp [parse_datetime, mkDatetime, hv]
  · intro dt st h1 h2 h3 h4 h5 h6 h7
    have hy : hex_byte ((dt.year : Int) - 2000) = some [dt.year - 2000] := by
      simp only [hex_byte]
      rw [if_pos (by omega)]
      simp only [Option.some.injEq, List.cons.injEq, and_true]
      omega
    have hm : hex_byte (dt.month : Int) = some [dt.month] := by
      simp only [hex_byte]
      rw [if_pos (by omega)]
      simp
    have hd2 : hex_byte (dt.day : Int) = some [dt.day] := by
      simp only [hex_byte]
      rw [if_pos (by omega)]
      simp
    have hh : hex_byte (dt.hour : Int) = some [dt.hour] := by
      simp only [hex_byte]
      rw [if_pos (by omega)]
      simp
    have hmi2 : hex_byte (dt.minute : Int) = some [dt.minute] := by
      simp only [hex_byte]
      rw [if_pos (by omega)]
      simp
    have hs2 : hex_byte (dt.second : Int) = some [dt.second] := by
      simp only [hex_byte]
      rw [if_pos (by omega)]
      simp
    simp only [set_datetime, hy, hm, hd2, hh, hmi2, hs2]
    rw [send_command_fst]
    simp

/-- C7 witness: a normal date round trips through raw bytes. -/
theorem datetime_raw_bytes_witness :
    validDateTime ⟨2023, 5, 17, 12, 30, 45⟩ = true ∧
    parse_datetime [23, 5, 17, 12, 30, 45] = some ⟨2023, 5, 17, 12, 30, 45⟩ ∧
    (set_datetime ⟨2023, 5, 17, 12, 30, 45⟩ ⟨[], [OK]⟩).1.written =
      [] ++ [frame (strBytes "SETDATETIME" ++ [23, 5, 17, 12, 30, 45])] :=
  ⟨by decide,
   datetime_raw_bytes.1 23 5 17 12 30 45 [] (by decide),
   datetime_raw_bytes.2 ⟨2023, 5, 17, 12, 30, 45⟩ ⟨[], [OK]⟩ (by decide) (by decide)
     (by decide) (by decide) (by decide) (by decide) (by decide)⟩

/-- C8. With a declared response format, send_command unpacks the
response and returns a single decoded value as a scalar, not a
one-element sequence; any other number of decoded values is returned as
the full tuple. -/
theorem single_field_scalar (cmd : List Nat) (fmt : List PackCode)
    (resp : List Nat) (vs : List Nat) (w rest : List (List Nat))
    (h : unpackCodes fmt resp = some vs) :
    (send_command cmd (some fmt) none ⟨w, resp :: rest⟩).2 =
      match vs with
      | [v] => Except.ok (Response.scalar v)
      | _ => Except.ok (Response.tuple vs) := by
  simp only [send_command, List.headD_cons, List.tail_cons, decodeResponse, h]
  cases vs with
  | nil => rfl
  | cons v t => cases t <;> rfl

/-- C8 witness: GETCPM (one u32 field) decodes to a scalar, GETGYRO
(three u16 fields and a pad byte) to the full triple. -/
theorem single_field_scalar_witness :
    unpackCodes [PackCode.u32] [0, 0, 1, 5] = some [261] ∧
    (send_command (strBytes "GETCPM") (some [PackCode.u32]) none
      ⟨[], [[0, 0, 1, 5]]⟩).2 = Except.ok (Response.scalar 261) ∧
    unpackCodes [PackCode.u16, PackCode.u16, PackCode.u16, PackCode.pad]
      [0, 1, 0, 2, 0, 3, 9] = some [1, 2, 3] ∧
    (send_command (strBytes "GETGYRO")
      (some [PackCode.u16, PackCode.u16, PackCode.u16, PackCode.pad]) none
      ⟨[], [[0, 1, 0, 2, 0, 3, 9]]⟩).2 = Except.ok (Response.tuple [1, 2, 3]) :=
  ⟨by decide,
   single_field_scalar (strBytes "GETCPM") [PackCode.u32] [0, 0, 1, 5] [261] [] []
     (by decide),
   by decide,
   single_field_scalar (strBytes "GETGYRO")
     [PackCode.u16, PackCode.u16, PackCode.u16, PackCode.pad]
     [0, 1, 0, 2, 0, 3, 9] [1, 2, 3] [] [] (by decide)⟩

/-- C9 (code-bug evidence). On a well-formed association-status exchange
the positional parse of the content line yields the nine named fields,
but get_wifi_status hands the line string itself to the record reader,
which iterates it character by character: the quoted network name
survives because the reader carries its quoted-field state across the
one-character lines, but the first record is completed at the closing
quote, so the returned record is the network name alone with every
other field missing. -/
theorem get_wifi_status_char_bug :
    csvParseLine ((wifiStatusLines.getD 1 "").drop 7) =
      ["MyNet", "aa:bb:cc:dd:ee:ff", "6", "-50", "1", "0", "3", "0", "0"] ∧
    get_wifi_status wifiStatusLines =
      some [("ssid", some "MyNet"), ("bssid", none), ("channel", none), ("rssi", none),
        ("pci_en", none), ("reconn_interval", none), ("listen_interval", none),
        ("scan_mode", none), ("pmf", none)] :=
  ⟨by decide, by decide⟩

/-- C10. hex_byte yields the single raw byte exactly on 0..127 and fails
outside that range; set_datetime therefore fails, leaving the channel
state untouched, for every year at or past 2128, as does set_date_yy for
every offset at or past 128; and when every component value is below 128
the encode-failure branch is unreachable. -/
theorem hex_byte_range :
    (∀ x : Int, 0 ≤ x → x < 128 → hex_byte x = some [x.toNat]) ∧
    (∀ x : Int, 128 ≤ x → hex_byte x = none) ∧
    (∀ x : Int, x < 0 → hex_byte x = none) ∧
    (∀ (dt : DateTime) (st : ChanState), 2128 ≤ dt.year →
      set_datetime dt st = (st, Except.error .encodeError)) ∧
    (∀ (y : Int) (st : ChanState), 128 ≤ y →
      set_date_yy y st = (st, Except.error .encodeError)) ∧
    (∀ (dt : DateTime) (st : ChanState), 2000 ≤ dt.year → dt.year < 2128 →
      dt.month < 128 → dt.day < 128 → dt.hour < 128 → dt.minute < 128 →
      dt.second < 128 →
      (set_datetime dt st).2 ≠ Except.error .encodeError) := by
  refine ⟨?_, ?_, ?_, ?_, ?_, ?_⟩
  · intro x h1 h2
    simp only [hex_byte]
    rw [if_pos ⟨h1, h2⟩]
  · intro x h
    simp only [hex_byte]
    rw [if_neg]
    intro hcon
    omega
  · intro x h
    simp only [hex_byte]
    rw [if_neg]
    intro hcon
    omega
  · intro dt st h
    have hy : hex_byte ((dt.year : Int) - 2000) = none := by
      simp only [hex_byte]
      rw [if_neg]
      intro hcon
      omega
    simp only [set_datetime, hy]
  · intro y st h
    have hy : hex_byte y = none := by
      simp only [hex_byte]
      rw [if_neg]
      intro hcon
      omega
    simp only [set_date_yy, hy]
  · intro dt st h1 h2 h3 h4 h5 h6 h7
    have hy : hex_byte ((dt.year : Int) - 2000) = some [dt.year - 2000] := by
      simp only [hex_byte]
      rw [if_pos (by omega)]
      simp only [Option.some.injEq, List.cons.injEq, and_true]
      omega
    have hm : hex_byte (dt.month : Int) = some [dt.month] := by
      simp only [hex_byte]
      rw [if_pos (by omega)]
      simp
    have hd2 : hex_byte (dt.day : Int) = some [dt.day] := by
      simp only [hex_byte]
      rw [if_pos (by omega)]
      simp
    have hh : hex_byte (dt.hour : Int) = some [dt.hour] := by
      simp only [hex_byte]
      rw [if_pos (by omega)]
      simp
    have hmi2 : hex_byte (dt.minute : Int) = some [dt.minute] := by
      simp only [hex_byte]
      rw [if_pos (by omega)]
      simp
    have hs2 : hex_byte (dt.second : Int) = some [dt.second] := by
      simp only [hex_byte]
      rw [if_pos (by omega)]
      simp
    simp only [set_datetime, hy, hm, hd2, hh, hmi2, hs2]
    exact send_command_no_encodeError _ _ st

/-- C10 witness: concrete instances of each clause. -/
theorem hex_byte_range_witness :
    hex_byte 23 = some [23] ∧ hex_byte 200 = none ∧ hex_byte (-1) = none ∧
    set_datetime ⟨2130, 1, 1, 0, 0, 0⟩ ⟨[], []⟩ =
      (⟨[], []⟩, Except.error .encodeError) ∧
    set_date_yy 130 ⟨[], []⟩ = (⟨[], []⟩, Except.error .encodeError) ∧
    (set_datetime ⟨2023, 5, 17, 12, 30, 45⟩ ⟨[], [OK]⟩).2 ≠
      Except.error .encodeError :=
  ⟨hex_byte_range.1 23 (by decide) (by decide),
   hex_byte_range.2.1 200 (by decide),
   hex_byte_range.2.2.1 (-1) (by decide),
   hex_byte_range.2.2.2.1 ⟨2130, 1, 1, 0, 0, 0⟩ ⟨[], []⟩ (by decide),
   hex_byte_range.2.2.2.2.1 130 ⟨[], []⟩ (by decide),
   hex_byte_range.2.2.2.2.2 ⟨2023, 5, 17, 12, 30, 45⟩ ⟨[], [OK]⟩ (by decide)
     (by decide) (by decide) (by decide) (by decide) (by decide) (by decide)⟩
